import Mathlib

set_option maxHeartbeats 1000000

namespace Slyce

/-!
Shallow embedding of the slyce repository core: the Rectangle geometry
primitive and cropExpand compositor (src/util.js), the EdgeMaxValues
aggregator and the edge-detection fragment shader (src/EdgeFinder.js), and
the findMargins threshold scan (src/unnamed/part_001).
-/

/-- Rectangle from src/util.js: four coordinates, half-open region.
A point (x,y) is inside iff left ≤ x < right and top ≤ y < bottom. -/
structure Rectangle where
  left : Int
  top : Int
  right : Int
  bottom : Int
deriving DecidableEq, Repr

/-- Rectangle.isEmpty from src/util.js: right ≤ left or bottom ≤ top. -/
def Rectangle.isEmpty (r : Rectangle) : Bool :=
  r.right ≤ r.left || r.bottom ≤ r.top

/-- Rectangle.contains from src/util.js. -/
def Rectangle.contains (r : Rectangle) (x y : Int) : Bool :=
  x ≥ r.left && x < r.right && y ≥ r.top && y < r.bottom

/-- Rectangle.getWidth from src/util.js: right - left. -/
def Rectangle.getWidth (r : Rectangle) : Int := r.right - r.left

/-- Rectangle.getHeight from src/util.js: bottom - top. -/
def Rectangle.getHeight (r : Rectangle) : Int := r.bottom - r.top

/-- Rectangle.grow from src/util.js: the state of the rectangle after the
four in-place assignments (left -= amount; top -= amount; right += amount;
bottom += amount). -/
def Rectangle.grow (r : Rectangle) (amount : Int) : Rectangle :=
  ⟨r.left - amount, r.top - amount, r.right + amount, r.bottom + amount⟩

/-- Rectangle.growBy from src/util.js: asymmetric in-place grow. -/
def Rectangle.growBy (r : Rectangle) (la ta ra ba : Int) : Rectangle :=
  ⟨r.left - la, r.top - ta, r.right + ra, r.bottom + ba⟩

/-- Rectangle.set from src/util.js: the state after assigning all four
fields. -/
def Rectangle.set (r : Rectangle) (l t rt b : Int) : Rectangle :=
  ⟨l, t, rt, b⟩

/-- Rectangle.intersect from src/util.js: returns a new Rectangle
(max left, max top, min right, min bottom); the receiver is not assigned. -/
def Rectangle.intersect (r other : Rectangle) : Rectangle :=
  ⟨max r.left other.left, max r.top other.top,
   min r.right other.right, min r.bottom other.bottom⟩

/-- Method-call view of Rectangle.grow from src/util.js: first component is
the receiver state after the call, second is the returned value (the source
mutates this and returns this, so both are the grown rectangle). -/
def Rectangle.growCall (r : Rectangle) (amount : Int) : Rectangle × Rectangle :=
  (r.grow amount, r.grow amount)

/-- Method-call view of Rectangle.set from src/util.js: mutates this and
returns this. -/
def Rectangle.setCall (r : Rectangle) (l t rt b : Int) : Rectangle × Rectangle :=
  (r.set l t rt b, r.set l t rt b)

/-- Method-call view of Rectangle.intersect from src/util.js: the body only
reads this.left etc. and returns new Rectangle(...), so the receiver state
after the call is unchanged and the returned value is the intersection. -/
def Rectangle.intersectCall (r other : Rectangle) : Rectangle × Rectangle :=
  (r, r.intersect other)

/-- EdgeMaxValues from src/EdgeFinder.js: per-row and per-column running
maxima, each entry a 32-bit packed RGBA value (0xAABBGGRR). The Uint32Array
backing stores are modelled as index functions. -/
structure EdgeMaxValues where
  width : Nat
  height : Nat
  rowMaxs : Nat → Nat
  columnMaxs : Nat → Nat

/-- Red channel of a packed 0xAABBGGRR value: packed & 0xFF. -/
def redCh (packed : Nat) : Nat := packed &&& 0xFF

/-- Green channel: (packed >> 8) & 0xFF. -/
def greenCh (packed : Nat) : Nat := (packed >>> 8) &&& 0xFF

/-- Blue channel: (packed >> 16) & 0xFF. -/
def blueCh (packed : Nat) : Nat := (packed >>> 16) &&& 0xFF

/-- Alpha channel: (packed >> 24) & 0xFF. -/
def alphaCh (packed : Nat) : Nat := (packed >>> 24) &&& 0xFF

/-- EdgeMaxValues.clear from src/EdgeFinder.js: fills both arrays with 0. -/
def EdgeMaxValues.clear (e : EdgeMaxValues) : EdgeMaxValues :=
  { e with rowMaxs := fun _ => 0, columnMaxs := fun _ => 0 }

/-- EdgeMaxValues.considerSample from src/EdgeFinder.js: extracts the four
channels of the sample, takes per-channel maxima against rowMaxs[y] and
columnMaxs[x], and stores the repacked results back. -/
def EdgeMaxValues.considerSample (e : EdgeMaxValues) (x y : Nat)
    (packedRGBA : Nat) : EdgeMaxValues :=
  let r := packedRGBA &&& 0xFF
  let g := (packedRGBA >>> 8) &&& 0xFF
  let b := (packedRGBA >>> 16) &&& 0xFF
  let a := (packedRGBA >>> 24) &&& 0xFF
  let currentRowMax := e.rowMaxs y
  let rowR := max (currentRowMax &&& 0xFF) r
  let rowG := max ((currentRowMax >>> 8) &&& 0xFF) g
  let rowB := max ((currentRowMax >>> 16) &&& 0xFF) b
  let rowA := max ((currentRowMax >>> 24) &&& 0xFF) a
  let newRowMax := (rowA <<< 24) ||| (rowB <<< 16) ||| (rowG <<< 8) ||| rowR
  let currentColMax := e.columnMaxs x
  let colR := max (currentColMax &&& 0xFF) r
  let colG := max ((currentColMax >>> 8) &&& 0xFF) g
  let colB := max ((currentColMax >>> 16) &&& 0xFF) b
  let colA := max ((currentColMax >>> 24) &&& 0xFF) a
  let newColMax := (colA <<< 24) ||| (colB <<< 16) ||| (colG <<< 8) ||| colR
  { e with
    rowMaxs := fun i => if i = y then newRowMax else e.rowMaxs i,
    columnMaxs := fun i => if i = x then newColMax else e.columnMaxs i }

/-- Ascending scan helper: least index i < n with p i, as the loops
`for (x = 0; x < width; x++) ... break` in src/unnamed/part_001 compute. -/
def firstIdx (p : Nat → Bool) : Nat → Option Nat
  | 0 => none
  | n + 1 =>
    match firstIdx p n with
    | some i => some i
    | none => if p n then some n else none

/-- Descending scan helper: greatest index i < n with p i, as the loops
`for (x = width - 1; x >= 0; x--) ... break` compute. -/
def lastIdx (p : Nat → Bool) : Nat → Option Nat
  | 0 => none
  | n + 1 => if p n then some n else lastIdx p n

/-- The `left` scan of findMargins (src/unnamed/part_001 lines 19-27):
leftmost column whose blue channel exceeds the limit, else width. -/
def rawLeft (e : EdgeMaxValues) (limit : Int) : Int :=
  match firstIdx (fun x => decide (limit < (blueCh (e.columnMaxs x) : Int))) e.width with
  | some x => (x : Int)
  | none => (e.width : Int)

/-- The `right` scan of findMargins (lines 30-38): rightmost column whose
alpha channel exceeds the limit, plus one, else -1. -/
def rawRight (e : EdgeMaxValues) (limit : Int) : Int :=
  match lastIdx (fun x => decide (limit < (alphaCh (e.columnMaxs x) : Int))) e.width with
  | some x => (x : Int) + 1
  | none => -1

/-- The `top` scan of findMargins (lines 41-49): topmost row whose red
channel exceeds the limit, else height. -/
def rawTop (e : EdgeMaxValues) (limit : Int) : Int :=
  match firstIdx (fun y => decide (limit < (redCh (e.rowMaxs y) : Int))) e.height with
  | some y => (y : Int)
  | none => (e.height : Int)

/-- The `bottom` scan of findMargins (lines 52-60): bottommost row whose
green channel exceeds the limit, plus one, else -1. -/
def rawBottom (e : EdgeMaxValues) (limit : Int) : Int :=
  match lastIdx (fun y => decide (limit < (greenCh (e.rowMaxs y) : Int))) e.height with
  | some y => (y : Int) + 1
  | none => -1

/-- findMargins from src/unnamed/part_001: the four scans, the per-axis
collapse to (0,0) when either bound was not found (lines 62-73), and the
final clamping conditionals (lines 76-79). -/
def findMargins (e : EdgeMaxValues) (limit : Int) : Rectangle :=
  let width : Int := e.width
  let height : Int := e.height
  let lr : Int × Int :=
    if rawLeft e limit ≥ width ∨ rawRight e limit ≤ -1 then (0, 0)
    else (rawLeft e limit, rawRight e limit)
  let tb : Int × Int :=
    if rawTop e limit ≥ height ∨ rawBottom e limit ≤ -1 then (0, 0)
    else (rawTop e limit, rawBottom e limit)
  let l := if lr.1 ≥ width then width else lr.1
  let r := if lr.2 ≤ -1 then 0 else lr.2
  let t := if tb.1 ≥ height then height else tb.1
  let b := if tb.2 ≤ -1 then 0 else tb.2
  ⟨l, t, r, b⟩

theorem firstIdx_none_iff {p : Nat → Bool} {n : Nat} :
    firstIdx p n = none ↔ ∀ i, i < n → p i = false := by
  induction n with
  | zero => simp [firstIdx]
  | succ n ih =>
    rw [firstIdx]
    cases h : firstIdx p n with
    | some i =>
      simp only [reduceCtorEq, false_iff]
      intro hall
      have := ih.mpr (fun i hi => hall i (Nat.lt_succ_of_lt hi))
      rw [this] at h
      exact Option.noConfusion h
    | none =>
      have hall := ih.mp h
      constructor
      · intro hif i hi
        rcases Nat.lt_succ_iff_lt_or_eq.mp hi with hlt | heq
        · exact hall i hlt
        · subst heq
          by_contra hp
          simp [Bool.not_eq_false] at hp
          simp [hp] at hif
      · intro hall2
        have := hall2 n (Nat.lt_succ_self n)
        simp [this]

theorem firstIdx_some {p : Nat → Bool} {n i : Nat} (h : firstIdx p n = some i) :
    i < n ∧ p i = true ∧ ∀ j, j < i → p j = false := by
  induction n with
  | zero => simp [firstIdx] at h
  | succ n ih =>
    rw [firstIdx] at h
    cases h2 : firstIdx p n with
    | some k =>
      rw [h2] at h
      obtain rfl : k = i := by injection h
      obtain ⟨h3, h4, h5⟩ := ih h2
      exact ⟨Nat.lt_succ_of_lt h3, h4, h5⟩
    | none =>
      rw [h2] at h
      by_cases hp : p n = true
      · simp [hp] at h
        subst h
        exact ⟨Nat.lt_succ_self n, hp, firstIdx_none_iff.mp h2⟩
      · simp [Bool.not_eq_true] at hp
        simp [hp] at h

theorem lastIdx_none_iff {p : Nat → Bool} {n : Nat} :
    lastIdx p n = none ↔ ∀ i, i < n → p i = false := by
  induction n with
  | zero => simp [lastIdx]
  | succ n ih =>
    rw [lastIdx]
    by_cases hp : p n = true
    · simp only [hp, if_true, reduceCtorEq, false_iff]
      intro hall
      have := hall n (Nat.lt_succ_self n)
      rw [hp] at this
      exact Bool.noConfusion this
    · simp only [Bool.not_eq_true] at hp
      simp only [hp, Bool.false_eq_true, if_false, ih]
      constructor
      · intro hall i hi
        rcases Nat.lt_succ_iff_lt_or_eq.mp hi with hlt | heq
        · exact hall i hlt
        · subst heq; exact hp
      · intro hall i hi
        exact hall i (Nat.lt_succ_of_lt hi)

theorem lastIdx_some {p : Nat → Bool} {n i : Nat} (h : lastIdx p n = some i) :
    i < n ∧ p i = true ∧ ∀ j, i < j → j < n → p j = false := by
  induction n with
  | zero => simp [lastIdx] at h
  | succ n ih =>
    rw [lastIdx] at h
    by_cases hp : p n = true
    · simp only [hp, if_true, Option.some.injEq] at h
      subst h
      exact ⟨Nat.lt_succ_self n, hp, fun j hj1 hj2 => absurd hj2 (Nat.not_lt.mpr hj1)⟩
    · simp only [Bool.not_eq_true] at hp
      simp only [hp, Bool.false_eq_true, if_false] at h
      obtain ⟨h3, h4, h5⟩ := ih h
      refine ⟨Nat.lt_succ_of_lt h3, h4, fun j hj1 hj2 => ?_⟩
      rcases Nat.lt_succ_iff_lt_or_eq.mp hj2 with hlt | heq
      · exact h5 j hj1 hlt
      · subst heq; exact hp

theorem firstIdx_isSome {p : Nat → Bool} {n : Nat}
    (h : ∃ i, i < n ∧ p i = true) : ∃ i, firstIdx p n = some i := by
  cases hfi : firstIdx p n with
  | none =>
    obtain ⟨i, hi, hp⟩ := h
    have := firstIdx_none_iff.mp hfi i hi
    rw [hp] at this
    exact Bool.noConfusion this
  | some i => exact ⟨i, rfl⟩

theorem lastIdx_isSome {p : Nat → Bool} {n : Nat}
    (h : ∃ i, i < n ∧ p i = true) : ∃ i, lastIdx p n = some i := by
  cases hfi : lastIdx p n with
  | none =>
    obtain ⟨i, hi, hp⟩ := h
    have := lastIdx_none_iff.mp hfi i hi
    rw [hp] at this
    exact Bool.noConfusion this
  | some i => exact ⟨i, rfl⟩

/-- Structure lemma for the horizontal axis of findMargins when both scans
find an index: the axis is (first blue hit, last alpha hit + 1). -/
theorem findMargins_x_some {e : EdgeMaxValues} {limit : Int} {i j : Nat}
    (hf : firstIdx (fun x => decide (limit < (blueCh (e.columnMaxs x) : Int))) e.width = some i)
    (hl : lastIdx (fun x => decide (limit < (alphaCh (e.columnMaxs x) : Int))) e.width = some j) :
    (findMargins e limit).left = (i : Int) ∧ (findMargins e limit).right = (j : Int) + 1 := by
  have hi := (firstIdx_some hf).1
  have hraw1 : rawLeft e limit = (i : Int) := by rw [rawLeft, hf]
  have hraw2 : rawRight e limit = (j : Int) + 1 := by rw [rawRight, hl]
  have hcond : ¬(rawLeft e limit ≥ (e.width : Int) ∨ rawRight e limit ≤ -1) := by
    rw [hraw1, hraw2]; push_neg; omega
  simp only [findMargins, hcond, if_false, hraw1, hraw2]
  have h1 : ¬((i : Int) ≥ (e.width : Int)) := by omega
  have h2 : ¬((j : Int) + 1 ≤ -1) := by omega
  simp [h1, h2]

/-- Structure lemma for the horizontal axis of findMargins when either scan
comes up empty: the axis collapses to (0, 0). -/
theorem findMargins_x_none {e : EdgeMaxValues} {limit : Int}
    (h : firstIdx (fun x => decide (limit < (blueCh (e.columnMaxs x) : Int))) e.width = none ∨
         lastIdx (fun x => decide (limit < (alphaCh (e.columnMaxs x) : Int))) e.width = none) :
    (findMargins e limit).left = 0 ∧ (findMargins e limit).right = 0 := by
  have hcond : rawLeft e limit ≥ (e.width : Int) ∨ rawRight e limit ≤ -1 := by
    rcases h with h | h
    · left; rw [rawLeft, h]
    · right; rw [rawRight, h]
  simp only [findMargins, hcond, if_true]
  exact ⟨by split <;> omega, by split <;> rfl⟩

/-- Structure lemma for the vertical axis of findMargins when both scans
find an index: the axis is (first red hit, last green hit + 1). -/
theorem findMargins_y_some {e : EdgeMaxValues} {limit : Int} {i j : Nat}
    (hf : firstIdx (fun y => decide (limit < (redCh (e.rowMaxs y) : Int))) e.height = some i)
    (hl : lastIdx (fun y => decide (limit < (greenCh (e.rowMaxs y) : Int))) e.height = some j) :
    (findMargins e limit).top = (i : Int) ∧ (findMargins e limit).bottom = (j : Int) + 1 := by
  have hi := (firstIdx_some hf).1
  have hraw1 : rawTop e limit = (i : Int) := by rw [rawTop, hf]
  have hraw2 : rawBottom e limit = (j : Int) + 1 := by rw [rawBottom, hl]
  have hcond : ¬(rawTop e limit ≥ (e.height : Int) ∨ rawBottom e limit ≤ -1) := by
    rw [hraw1, hraw2]; push_neg; omega
  simp only [findMargins, hcond, if_false, hraw1, hraw2]
  have h1 : ¬((i : Int) ≥ (e.height : Int)) := by omega
  have h2 : ¬((j : Int) + 1 ≤ -1) := by omega
  simp [h1, h2]

/-- Structure lemma for the vertical axis of findMargins when either scan
comes up empty: the axis collapses to (0, 0). -/
theorem findMargins_y_none {e : EdgeMaxValues} {limit : Int}
    (h : firstIdx (fun y => decide (limit < (redCh (e.rowMaxs y) : Int))) e.height = none ∨
         lastIdx (fun y => decide (limit < (greenCh (e.rowMaxs y) : Int))) e.height = none) :
    (findMargins e limit).top = 0 ∧ (findMargins e limit).bottom = 0 := by
  have hcond : rawTop e limit ≥ (e.height : Int) ∨ rawBottom e limit ≤ -1 := by
    rcases h with h | h
    · left; rw [rawTop, h]
    · right; rw [rawBottom, h]
  simp only [findMargins, hcond, if_true]
  exact ⟨by split <;> omega, by split <;> rfl⟩

/-- Example aggregate in which every scan of findMargins finds a hit:
both arrays hold 0xFFFFFFFF everywhere (all four channels 255). -/
def eFull : EdgeMaxValues :=
  ⟨2, 2, fun _ => 0xFFFFFFFF, fun _ => 0xFFFFFFFF⟩

/-- Example aggregate with no hit on the column axis (all columns zero) and
full hits on the row axis. -/
def eNoCols : EdgeMaxValues :=
  ⟨2, 2, fun _ => 0xFFFFFFFF, fun _ => 0⟩

/-- Example aggregate in which the leftmost blue hit (x = 2) lies to the
right of the rightmost alpha hit (x = 0), so findMargins produces
left > right. -/
def eCrossed : EdgeMaxValues :=
  ⟨3, 1, fun _ => 0,
   fun x => if x = 2 then 0xFF <<< 16 else if x = 0 then 0xFF <<< 24 else 0⟩

/-- C1: for an EdgeMaxValues in which every bound finds a qualifying index,
findMargins returns exactly: left = the smallest x with the blue channel of
columnMaxs[x] above the limit, right = 1 + the largest x with the alpha
channel above the limit, top = the smallest y with the red channel of
rowMaxs[y] above the limit, bottom = 1 + the largest y with the green
channel above the limit, all comparisons strict. -/
theorem findMargins_exact_bounds (e : EdgeMaxValues) (limit : Int)
    (hL : ∃ x, x < e.width ∧ limit < (blueCh (e.columnMaxs x) : Int))
    (hR : ∃ x, x < e.width ∧ limit < (alphaCh (e.columnMaxs x) : Int))
    (hT : ∃ y, y < e.height ∧ limit < (redCh (e.rowMaxs y) : Int))
    (hB : ∃ y, y < e.height ∧ limit < (greenCh (e.rowMaxs y) : Int)) :
    (∃ lx : Nat, (findMargins e limit).left = lx ∧ lx < e.width ∧
      limit < (blueCh (e.columnMaxs lx) : Int) ∧
      ∀ j, j < lx → ¬ limit < (blueCh (e.columnMaxs j) : Int)) ∧
    (∃ rx : Nat, (findMargins e limit).right = (rx : Int) + 1 ∧ rx < e.width ∧
      limit < (alphaCh (e.columnMaxs rx) : Int) ∧
      ∀ j, rx < j → j < e.width → ¬ limit < (alphaCh (e.columnMaxs j) : Int)) ∧
    (∃ ty : Nat, (findMargins e limit).top = ty ∧ ty < e.height ∧
      limit < (redCh (e.rowMaxs ty) : Int) ∧
      ∀ j, j < ty → ¬ limit < (redCh (e.rowMaxs j) : Int)) ∧
    (∃ bz : Nat, (findMargins e limit).bottom = (bz : Int) + 1 ∧ bz < e.height ∧
      limit < (greenCh (e.rowMaxs bz) : Int) ∧
      ∀ j, bz < j → j < e.height → ¬ limit < (greenCh (e.rowMaxs j) : Int)) := by
  obtain ⟨lx, hfL⟩ := firstIdx_isSome (p := fun x => decide (limit < (blueCh (e.columnMaxs x) : Int)))
    (by obtain ⟨x, hx1, hx2⟩ := hL; exact ⟨x, hx1, by simpa using hx2⟩)
  obtain ⟨rx, hlR⟩ := lastIdx_isSome (p := fun x => decide (limit < (alphaCh (e.columnMaxs x) : Int)))
    (by obtain ⟨x, hx1, hx2⟩ := hR; exact ⟨x, hx1, by simpa using hx2⟩)
  obtain ⟨ty, hfT⟩ := firstIdx_isSome (p := fun y => decide (limit < (redCh (e.rowMaxs y) : Int)))
    (by obtain ⟨y, hy1, hy2⟩ := hT; exact ⟨y, hy1, by simpa using hy2⟩)
  obtain ⟨bz, hlB⟩ := lastIdx_isSome (p := fun y => decide (limit < (greenCh (e.rowMaxs y) : Int)))
    (by obtain ⟨y, hy1, hy2⟩ := hB; exact ⟨y, hy1, by simpa using hy2⟩)
  obtain ⟨hx1, hx2⟩ := findMargins_x_some hfL hlR
  obtain ⟨hy1, hy2⟩ := findMargins_y_some hfT hlB
  obtain ⟨haL, hbL, hcL⟩ := firstIdx_some hfL
  obtain ⟨haR, hbR, hcR⟩ := lastIdx_some hlR
  obtain ⟨haT, hbT, hcT⟩ := firstIdx_some hfT
  obtain ⟨haB, hbB, hcB⟩ := lastIdx_some hlB
  refine ⟨⟨lx, hx1, haL, by simpa using hbL, fun j hj => ?_⟩,
          ⟨rx, hx2, haR, by simpa using hbR, fun j hj1 hj2 => ?_⟩,
          ⟨ty, hy1, haT, by simpa using hbT, fun j hj => ?_⟩,
          ⟨bz, hy2, haB, by simpa using hbB, fun j hj1 hj2 => ?_⟩⟩
  · simpa using hcL j hj
  · simpa using hcR j hj1 hj2
  · simpa using hcT j hj
  · simpa using hcB j hj1 hj2

/-- Witness for C1 at a concrete aggregate with hits everywhere. -/
theorem findMargins_exact_bounds_witness :
    ∃ lx : Nat, (findMargins eFull 0).left = lx ∧ lx < eFull.width ∧
      (0 : Int) < (blueCh (eFull.columnMaxs lx) : Int) ∧
      ∀ j, j < lx → ¬ (0 : Int) < (blueCh (eFull.columnMaxs j) : Int) :=
  (findMargins_exact_bounds eFull 0
    ⟨0, by decide, by decide⟩ ⟨0, by decide, by decide⟩
    ⟨0, by decide, by decide⟩ ⟨0, by decide, by decide⟩).1

/-- C2: if either bound of an axis finds no qualifying index, findMargins
collapses that whole axis to (0, 0); and the two axes are independent: the
horizontal result depends only on the width and the column maxima, the
vertical result only on the height and the row maxima. -/
theorem findMargins_degenerate_collapse (e : EdgeMaxValues) (limit : Int) :
    (((∀ x, x < e.width → ¬ limit < (blueCh (e.columnMaxs x) : Int)) ∨
      (∀ x, x < e.width → ¬ limit < (alphaCh (e.columnMaxs x) : Int))) →
      (findMargins e limit).left = 0 ∧ (findMargins e limit).right = 0) ∧
    (((∀ y, y < e.height → ¬ limit < (redCh (e.rowMaxs y) : Int)) ∨
      (∀ y, y < e.height → ¬ limit < (greenCh (e.rowMaxs y) : Int))) →
      (findMargins e limit).top = 0 ∧ (findMargins e limit).bottom = 0) ∧
    (∀ e2 : EdgeMaxValues, e2.width = e.width →
      (∀ x, e2.columnMaxs x = e.columnMaxs x) →
      (findMargins e2 limit).left = (findMargins e limit).left ∧
      (findMargins e2 limit).right = (findMargins e limit).right) ∧
    (∀ e2 : EdgeMaxValues, e2.height = e.height →
      (∀ y, e2.rowMaxs y = e.rowMaxs y) →
      (findMargins e2 limit).top = (findMargins e limit).top ∧
      (findMargins e2 limit).bottom = (findMargins e limit).bottom) := by
  refine ⟨fun h => ?_, fun h => ?_, fun e2 hw hc => ?_, fun e2 hh hr => ?_⟩
  · apply findMargins_x_none
    rcases h with h | h
    · left
      exact firstIdx_none_iff.mpr (fun i hi => by simpa using h i hi)
    · right
      exact lastIdx_none_iff.mpr (fun i hi => by simpa using h i hi)
  · apply findMargins_y_none
    rcases h with h | h
    · left
      exact firstIdx_none_iff.mpr (fun i hi => by simpa using h i hi)
    · right
      exact lastIdx_none_iff.mpr (fun i hi => by simpa using h i hi)
  · have hceq : e2.columnMaxs = e.columnMaxs := funext hc
    have hx : ∀ lim2 : Int, rawLeft e2 lim2 = rawLeft e lim2 ∧ rawRight e2 lim2 = rawRight e lim2 := by
      intro lim2
      rw [rawLeft, rawLeft, rawRight, rawRight, hceq, hw]
      exact ⟨rfl, rfl⟩
    obtain ⟨h1, h2⟩ := hx limit
    simp only [findMargins, h1, h2, hw]
    exact ⟨trivial, trivial⟩
  · have hreq : e2.rowMaxs = e.rowMaxs := funext hr
    have hy : ∀ lim2 : Int, rawTop e2 lim2 = rawTop e lim2 ∧ rawBottom e2 lim2 = rawBottom e lim2 := by
      intro lim2
      rw [rawTop, rawTop, rawBottom, rawBottom, hreq, hh]
      exact ⟨rfl, rfl⟩
    obtain ⟨h1, h2⟩ := hy limit
    simp only [findMargins, h1, h2, hh]
    exact ⟨trivial, trivial⟩

/-- Witness for C2 at a concrete aggregate whose columns are all zero: the
horizontal axis collapses to (0, 0). -/
theorem findMargins_degenerate_collapse_witness :
    (findMargins eNoCols 5).left = 0 ∧ (findMargins eNoCols 5).right = 0 :=
  (findMargins_degenerate_collapse eNoCols 5).1 (Or.inl (by decide))

/-- C6: raising the limit never enlarges the rectangle on either axis: every
horizontal coordinate covered at the higher limit is covered at the lower
limit, and likewise vertically (a collapse to (0,0) covers nothing). -/
theorem findMargins_antitone (e : EdgeMaxValues) (l1 l2 : Int) (h12 : l1 ≤ l2) :
    (∀ x : Int, (findMargins e l2).left ≤ x → x < (findMargins e l2).right →
      (findMargins e l1).left ≤ x ∧ x < (findMargins e l1).right) ∧
    (∀ y : Int, (findMargins e l2).top ≤ y → y < (findMargins e l2).bottom →
      (findMargins e l1).top ≤ y ∧ y < (findMargins e l1).bottom) := by
  constructor
  · intro x hx1 hx2
    cases hf2 : firstIdx (fun x => decide (l2 < (blueCh (e.columnMaxs x) : Int))) e.width with
    | none =>
      obtain ⟨ha, hb⟩ := @findMargins_x_none e l2 (Or.inl hf2)
      rw [ha] at hx1; rw [hb] at hx2; omega
    | some i2 =>
      cases hl2 : lastIdx (fun x => decide (l2 < (alphaCh (e.columnMaxs x) : Int))) e.width with
      | none =>
        obtain ⟨ha, hb⟩ := @findMargins_x_none e l2 (Or.inr hl2)
        rw [ha] at hx1; rw [hb] at hx2; omega
      | some j2 =>
        obtain ⟨ha2, hb2⟩ := findMargins_x_some hf2 hl2
        obtain ⟨hi2w, hpi2, _⟩ := firstIdx_some hf2
        obtain ⟨hj2w, hpj2, _⟩ := lastIdx_some hl2
        have hpi2' : l1 < (blueCh (e.columnMaxs i2) : Int) := by
          have := of_decide_eq_true hpi2; omega
        have hpj2' : l1 < (alphaCh (e.columnMaxs j2) : Int) := by
          have := of_decide_eq_true hpj2; omega
        obtain ⟨i1, hf1⟩ := firstIdx_isSome (p := fun x => decide (l1 < (blueCh (e.columnMaxs x) : Int)))
          ⟨i2, hi2w, decide_eq_true hpi2'⟩
        obtain ⟨j1, hl1⟩ := lastIdx_isSome (p := fun x => decide (l1 < (alphaCh (e.columnMaxs x) : Int)))
          ⟨j2, hj2w, decide_eq_true hpj2'⟩
        obtain ⟨ha1, hb1⟩ := findMargins_x_some hf1 hl1
        obtain ⟨_, _, hmin1⟩ := firstIdx_some hf1
        obtain ⟨_, _, hmax1⟩ := lastIdx_some hl1
        have hle : i1 ≤ i2 := by
          by_contra hcc
          have := hmin1 i2 (by omega)
          rw [decide_eq_true hpi2'] at this
          exact Bool.noConfusion this
        have hge : j2 ≤ j1 := by
          by_contra hcc
          have := hmax1 j2 (by omega) hj2w
          rw [decide_eq_true hpj2'] at this
          exact Bool.noConfusion this
        rw [ha2] at hx1; rw [hb2] at hx2; rw [ha1, hb1]
        omega
  · intro y hy1 hy2
    cases hf2 : firstIdx (fun y => decide (l2 < (redCh (e.rowMaxs y) : Int))) e.height with
    | none =>
      obtain ⟨ha, hb⟩ := @findMargins_y_none e l2 (Or.inl hf2)
      rw [ha] at hy1; rw [hb] at hy2; omega
    | some i2 =>
      cases hl2 : lastIdx (fun y => decide (l2 < (greenCh (e.rowMaxs y) : Int))) e.height with
      | none =>
        obtain ⟨ha, hb⟩ := @findMargins_y_none e l2 (Or.inr hl2)
        rw [ha] at hy1; rw [hb] at hy2; omega
      | some j2 =>
        obtain ⟨ha2, hb2⟩ := findMargins_y_some hf2 hl2
        obtain ⟨hi2w, hpi2, _⟩ := firstIdx_some hf2
        obtain ⟨hj2w, hpj2, _⟩ := lastIdx_some hl2
        have hpi2' : l1 < (redCh (e.rowMaxs i2) : Int) := by
          have := of_decide_eq_true hpi2; omega
        have hpj2' : l1 < (greenCh (e.rowMaxs j2) : Int) := by
          have := of_decide_eq_true hpj2; omega
        obtain ⟨i1, hf1⟩ := firstIdx_isSome (p := fun y => decide (l1 < (redCh (e.rowMaxs y) : Int)))
          ⟨i2, hi2w, decide_eq_true hpi2'⟩
        obtain ⟨j1, hl1⟩ := lastIdx_isSome (p := fun y => decide (l1 < (greenCh (e.rowMaxs y) : Int)))
          ⟨j2, hj2w, decide_eq_true hpj2'⟩
        obtain ⟨ha1, hb1⟩ := findMargins_y_some hf1 hl1
        obtain ⟨_, _, hmin1⟩ := firstIdx_some hf1
        obtain ⟨_, _, hmax1⟩ := lastIdx_some hl1
        have hle : i1 ≤ i2 := by
          by_contra hcc
          have := hmin1 i2 (by omega)
          rw [decide_eq_true hpi2'] at this
          exact Bool.noConfusion this
        have hge : j2 ≤ j1 := by
          by_contra hcc
          have := hmax1 j2 (by omega) hj2w
          rw [decide_eq_true hpj2'] at this
          exact Bool.noConfusion this
        rw [ha2] at hy1; rw [hb2] at hy2; rw [ha1, hb1]
        omega

/-- Witness for C6: at the full aggregate, the coordinate 1 covered at limit
100 is also covered at limit 0. -/
theorem findMargins_antitone_witness :
    (findMargins eFull 0).left ≤ 1 ∧ 1 < (findMargins eFull 0).right :=
  (findMargins_antitone eFull 0 100 (by decide)).1 1 (by decide) (by decide)

/-- C10: findMargins always stays inside the image bounds on all four
coordinates, but the result is not normalized: for the crossed aggregate it
returns left = 2 > right = 1, a non-collapsed empty rectangle. -/
theorem findMargins_bounds_and_unnormalized :
    (∀ (e : EdgeMaxValues) (limit : Int),
      0 ≤ (findMargins e limit).left ∧ (findMargins e limit).left ≤ (e.width : Int) ∧
      0 ≤ (findMargins e limit).right ∧ (findMargins e limit).right ≤ (e.width : Int) ∧
      0 ≤ (findMargins e limit).top ∧ (findMargins e limit).top ≤ (e.height : Int) ∧
      0 ≤ (findMargins e limit).bottom ∧ (findMargins e limit).bottom ≤ (e.height : Int)) ∧
    ((findMargins eCrossed 0).right < (findMargins eCrossed 0).left ∧
      (findMargins eCrossed 0).isEmpty = true ∧
      ¬((findMargins eCrossed 0).left = 0 ∧ (findMargins eCrossed 0).right = 0)) := by
  constructor
  · intro e limit
    have hx : (0 ≤ (findMargins e limit).left ∧ (findMargins e limit).left ≤ (e.width : Int)) ∧
        0 ≤ (findMargins e limit).right ∧ (findMargins e limit).right ≤ (e.width : Int) := by
      cases hf : firstIdx (fun x => decide (limit < (blueCh (e.columnMaxs x) : Int))) e.width with
      | none =>
        obtain ⟨ha, hb⟩ := @findMargins_x_none e limit (Or.inl hf)
        rw [ha, hb]; omega
      | some i =>
        cases hl : lastIdx (fun x => decide (limit < (alphaCh (e.columnMaxs x) : Int))) e.width with
        | none =>
          obtain ⟨ha, hb⟩ := @findMargins_x_none e limit (Or.inr hl)
          rw [ha, hb]; omega
        | some j =>
          obtain ⟨ha, hb⟩ := findMargins_x_some hf hl
          have hi := (firstIdx_some hf).1
          have hj := (lastIdx_some hl).1
          rw [ha, hb]; omega
    have hy : (0 ≤ (findMargins e limit).top ∧ (findMargins e limit).top ≤ (e.height : Int)) ∧
        0 ≤ (findMargins e limit).bottom ∧ (findMargins e limit).bottom ≤ (e.height : Int) := by
      cases hf : firstIdx (fun y => decide (limit < (redCh (e.rowMaxs y) : Int))) e.height with
      | none =>
        obtain ⟨ha, hb⟩ := @findMargins_y_none e limit (Or.inl hf)
        rw [ha, hb]; omega
      | some i =>
        cases hl : lastIdx (fun y => decide (limit < (greenCh (e.rowMaxs y) : Int))) e.height with
        | none =>
          obtain ⟨ha, hb⟩ := @findMargins_y_none e limit (Or.inr hl)
          rw [ha, hb]; omega
        | some j =>
          obtain ⟨ha, hb⟩ := findMargins_y_some hf hl
          have hi := (firstIdx_some hf).1
          have hj := (lastIdx_some hl).1
          rw [ha, hb]; omega
    exact ⟨hx.1.1, hx.1.2, hx.2.1, hx.2.2, hy.1.1, hy.1.2, hy.2.1, hy.2.2⟩
  · exact ⟨by decide, by decide, by decide⟩

theorem and_255_eq_mod (n : Nat) : n &&& 255 = n % 256 := by
  have h := Nat.and_pow_two_sub_one_eq_mod n 8
  norm_num at h
  exact h

theorem and_255_lt (n : Nat) : n &&& 255 < 256 := by
  rw [and_255_eq_mod]
  omega

theorem shiftRight_8_eq (n : Nat) : n >>> 8 = n / 256 := by
  have h := Nat.shiftRight_eq_div_pow n 8
  norm_num at h
  exact h

theorem shiftRight_16_eq (n : Nat) : n >>> 16 = n / 65536 := by
  have h := Nat.shiftRight_eq_div_pow n 16
  norm_num at h
  exact h

theorem shiftRight_24_eq (n : Nat) : n >>> 24 = n / 16777216 := by
  have h := Nat.shiftRight_eq_div_pow n 24
  norm_num at h
  exact h

/-- The 0xAABBGGRR packing used by considerSample equals plain base-256
positional arithmetic when the three low components are bytes. -/
theorem pack_eq_sum (r g b a : Nat) (hr : r < 256) (hg : g < 256) (hb : b < 256) :
    (a <<< 24) ||| (b <<< 16) ||| (g <<< 8) ||| r
      = a * 16777216 + b * 65536 + g * 256 + r := by
  have h1 : (a <<< 24) ||| (b <<< 16) = a * 16777216 + b * 65536 := by
    rw [Nat.shiftLeft_eq, Nat.shiftLeft_eq]
    have hb2 : b * 2 ^ 16 < 2 ^ 24 := by
      have he16 : (2 : Nat) ^ 16 = 65536 := by norm_num
      have he24 : (2 : Nat) ^ 24 = 16777216 := by norm_num
      rw [he16, he24]
      omega
    calc a * 2 ^ 24 ||| b * 2 ^ 16
        = 2 ^ 24 * a ||| b * 2 ^ 16 := by rw [Nat.mul_comm]
      _ = 2 ^ 24 * a + b * 2 ^ 16 := (Nat.mul_add_lt_is_or hb2 a).symm
      _ = a * 16777216 + b * 65536 := by ring
  have h2 : (a * 16777216 + b * 65536) ||| (g <<< 8)
      = a * 16777216 + b * 65536 + g * 256 := by
    rw [Nat.shiftLeft_eq]
    have hg2 : g * 2 ^ 8 < 2 ^ 16 := by
      have he8 : (2 : Nat) ^ 8 = 256 := by norm_num
      have he16 : (2 : Nat) ^ 16 = 65536 := by norm_num
      rw [he8, he16]
      omega
    have he : a * 16777216 + b * 65536 = 2 ^ 16 * (a * 256 + b) := by ring
    rw [he, ← Nat.mul_add_lt_is_or hg2 (a * 256 + b)]
    ring
  have h3 : (a * 16777216 + b * 65536 + g * 256) ||| r
      = a * 16777216 + b * 65536 + g * 256 + r := by
    have hr2 : r < 2 ^ 8 := by omega
    have he : a * 16777216 + b * 65536 + g * 256 = 2 ^ 8 * (a * 65536 + b * 256 + g) := by
      ring
    rw [he, ← Nat.mul_add_lt_is_or hr2 (a * 65536 + b * 256 + g)]
  rw [h1, h2, h3]

theorem redCh_pack {r g b a : Nat} (hr : r < 256) (hg : g < 256) (hb : b < 256) :
    redCh ((a <<< 24) ||| (b <<< 16) ||| (g <<< 8) ||| r) = r := by
  rw [redCh, pack_eq_sum r g b a hr hg hb, and_255_eq_mod]
  omega

theorem greenCh_pack {r g b a : Nat} (hr : r < 256) (hg : g < 256) (hb : b < 256) :
    greenCh ((a <<< 24) ||| (b <<< 16) ||| (g <<< 8) ||| r) = g := by
  rw [greenCh, pack_eq_sum r g b a hr hg hb, shiftRight_8_eq, and_255_eq_mod]
  omega

theorem blueCh_pack {r g b a : Nat} (hr : r < 256) (hg : g < 256) (hb : b < 256) :
    blueCh ((a <<< 24) ||| (b <<< 16) ||| (g <<< 8) ||| r) = b := by
  rw [blueCh, pack_eq_sum r g b a hr hg hb, shiftRight_16_eq, and_255_eq_mod]
  omega

theorem alphaCh_pack {r g b a : Nat} (hr : r < 256) (hg : g < 256) (hb : b < 256)
    (ha : a < 256) :
    alphaCh ((a <<< 24) ||| (b <<< 16) ||| (g <<< 8) ||| r) = a := by
  rw [alphaCh, pack_eq_sum r g b a hr hg hb, shiftRight_24_eq, and_255_eq_mod]
  omega

/-- C7: considerSample never decreases any of the four 8-bit channel maxima
stored in rowMaxs[y] and columnMaxs[x], and clear resets every entry of both
arrays to 0. -/
theorem considerSample_monotone_and_clear (e : EdgeMaxValues) (x y : Nat) (s : Nat) :
    redCh (e.rowMaxs y) ≤ redCh ((e.considerSample x y s).rowMaxs y) ∧
    greenCh (e.rowMaxs y) ≤ greenCh ((e.considerSample x y s).rowMaxs y) ∧
    blueCh (e.rowMaxs y) ≤ blueCh ((e.considerSample x y s).rowMaxs y) ∧
    alphaCh (e.rowMaxs y) ≤ alphaCh ((e.considerSample x y s).rowMaxs y) ∧
    redCh (e.columnMaxs x) ≤ redCh ((e.considerSample x y s).columnMaxs x) ∧
    greenCh (e.columnMaxs x) ≤ greenCh ((e.considerSample x y s).columnMaxs x) ∧
    blueCh (e.columnMaxs x) ≤ blueCh ((e.considerSample x y s).columnMaxs x) ∧
    alphaCh (e.columnMaxs x) ≤ alphaCh ((e.considerSample x y s).columnMaxs x) ∧
    (∀ i, e.clear.rowMaxs i = 0) ∧ (∀ i, e.clear.columnMaxs i = 0) := by
  have hrow : (e.considerSample x y s).rowMaxs y =
      ((max ((e.rowMaxs y >>> 24) &&& 0xFF) ((s >>> 24) &&& 0xFF)) <<< 24) |||
      ((max ((e.rowMaxs y >>> 16) &&& 0xFF) ((s >>> 16) &&& 0xFF)) <<< 16) |||
      ((max ((e.rowMaxs y >>> 8) &&& 0xFF) ((s >>> 8) &&& 0xFF)) <<< 8) |||
      (max (e.rowMaxs y &&& 0xFF) (s &&& 0xFF)) := by
    simp [EdgeMaxValues.considerSample]
  have hcol : (e.considerSample x y s).columnMaxs x =
      ((max ((e.columnMaxs x >>> 24) &&& 0xFF) ((s >>> 24) &&& 0xFF)) <<< 24) |||
      ((max ((e.columnMaxs x >>> 16) &&& 0xFF) ((s >>> 16) &&& 0xFF)) <<< 16) |||
      ((max ((e.columnMaxs x >>> 8) &&& 0xFF) ((s >>> 8) &&& 0xFF)) <<< 8) |||
      (max (e.columnMaxs x &&& 0xFF) (s &&& 0xFF)) := by
    simp [EdgeMaxValues.considerSample]
  have hmaxlt : ∀ u v : Nat, max (u &&& 0xFF) (v &&& 0xFF) < 256 := by
    intro u v
    exact max_lt (and_255_lt u) (and_255_lt v)
  refine ⟨?_, ?_, ?_, ?_, ?_, ?_, ?_, ?_, fun i => rfl, fun i => rfl⟩
  · rw [hrow, redCh_pack (hmaxlt _ _) (hmaxlt _ _) (hmaxlt _ _), redCh]
    exact le_max_left _ _
  · rw [hrow, greenCh_pack (hmaxlt _ _) (hmaxlt _ _) (hmaxlt _ _), greenCh]
    exact le_max_left _ _
  · rw [hrow, blueCh_pack (hmaxlt _ _) (hmaxlt _ _) (hmaxlt _ _), blueCh]
    exact le_max_left _ _
  · rw [hrow, alphaCh_pack (hmaxlt _ _) (hmaxlt _ _) (hmaxlt _ _) (hmaxlt _ _), alphaCh]
    exact le_max_left _ _
  · rw [hcol, redCh_pack (hmaxlt _ _) (hmaxlt _ _) (hmaxlt _ _), redCh]
    exact le_max_left _ _
  · rw [hcol, greenCh_pack (hmaxlt _ _) (hmaxlt _ _) (hmaxlt _ _), greenCh]
    exact le_max_left _ _
  · rw [hcol, blueCh_pack (hmaxlt _ _) (hmaxlt _ _) (hmaxlt _ _), blueCh]
    exact le_max_left _ _
  · rw [hcol, alphaCh_pack (hmaxlt _ _) (hmaxlt _ _) (hmaxlt _ _) (hmaxlt _ _), alphaCh]
    exact le_max_left _ _

/-- A four-channel color sample, channels as numbers (the shader works on
normalized floats; only differences and maxima matter here). -/
structure RGBA where
  r : Nat
  g : Nat
  b : Nat
  a : Nat
deriving DecidableEq, Repr

/-- chebyshevDistance from the fragment shader in src/EdgeFinder.js:
max(max(max(|dr|, |dg|), |db|), |da|). -/
def chebyshevDistance (p q : RGBA) : Nat :=
  max (max (max ((p.r : Int) - q.r).natAbs ((p.g : Int) - q.g).natAbs)
    ((p.b : Int) - q.b).natAbs) ((p.a : Int) - q.a).natAbs

/-- CLAMP_TO_EDGE sampling (src/EdgeFinder.js initWebGL sets
TEXTURE_WRAP_S/T to CLAMP_TO_EDGE): an out-of-range texel index is clamped
to the nearest edge texel. -/
def clampIdx (n : Nat) (i : Int) : Nat :=
  (min (max i 0) ((n : Int) - 1)).toNat

/-- Neighbor mode (u_diffToEdge false) of the fragment shader in
src/EdgeFinder.js: the four one-texel offset fetches with CLAMP_TO_EDGE,
then the four Chebyshev distances, packed as (up, down, left, right) into
(r, g, b, a) of gl_FragColor. -/
def edgeSampleNeighbor (img : Nat → Nat → RGBA) (w h x y : Nat) : RGBA :=
  let current := img x y
  let up := img x (clampIdx h ((y : Int) - 1))
  let down := img x (clampIdx h ((y : Int) + 1))
  let left := img (clampIdx w ((x : Int) - 1)) y
  let right := img (clampIdx w ((x : Int) + 1)) y
  ⟨chebyshevDistance current up, chebyshevDistance current down,
   chebyshevDistance current left, chebyshevDistance current right⟩

theorem chebyshevDistance_self (p : RGBA) : chebyshevDistance p p = 0 := by
  simp [chebyshevDistance]

/-- C3: in neighbor mode, every pixel on the outer edge of the image has its
outward-facing channel exactly 0: column 0 has left (blue) 0, column w-1
has right (alpha) 0, row 0 has up (red) 0, row h-1 has down (green) 0,
because the clamped neighbor fetch returns the pixel itself. -/
theorem edgeSampleNeighbor_boundary_zero (img : Nat → Nat → RGBA)
    (w h x y : Nat) (hx : x < w) (hy : y < h) :
    (edgeSampleNeighbor img w h 0 y).b = 0 ∧
    (edgeSampleNeighbor img w h (w - 1) y).a = 0 ∧
    (edgeSampleNeighbor img w h x 0).r = 0 ∧
    (edgeSampleNeighbor img w h x (h - 1)).g = 0 := by
  have hw : 0 < w := Nat.lt_of_le_of_lt (Nat.zero_le x) hx
  have hh : 0 < h := Nat.lt_of_le_of_lt (Nat.zero_le y) hy
  have c1 : clampIdx w ((0 : Nat) - 1 : Int) = 0 := by
    simp only [clampIdx]
    have : min (max ((0 : Nat) - 1 : Int) 0) ((w : Int) - 1) = 0 := by omega
    rw [this]; rfl
  have c2 : clampIdx w (((w - 1 : Nat) : Int) + 1) = w - 1 := by
    simp only [clampIdx]
    have hcast : ((w - 1 : Nat) : Int) = (w : Int) - 1 := by omega
    rw [hcast]
    have : min (max ((w : Int) - 1 + 1) 0) ((w : Int) - 1) = (w : Int) - 1 := by omega
    rw [this]
    omega
  have c3 : clampIdx h ((0 : Nat) - 1 : Int) = 0 := by
    simp only [clampIdx]
    have : min (max ((0 : Nat) - 1 : Int) 0) ((h : Int) - 1) = 0 := by omega
    rw [this]; rfl
  have c4 : clampIdx h (((h - 1 : Nat) : Int) + 1) = h - 1 := by
    simp only [clampIdx]
    have hcast : ((h - 1 : Nat) : Int) = (h : Int) - 1 := by omega
    rw [hcast]
    have : min (max ((h : Int) - 1 + 1) 0) ((h : Int) - 1) = (h : Int) - 1 := by omega
    rw [this]
    omega
  refine ⟨?_, ?_, ?_, ?_⟩
  · show chebyshevDistance (img 0 y) (img (clampIdx w ((0 : Nat) - 1 : Int)) y) = 0
    rw [c1, chebyshevDistance_self]
  · show chebyshevDistance (img (w - 1) y) (img (clampIdx w (((w - 1 : Nat) : Int) + 1)) y) = 0
    rw [c2, chebyshevDistance_self]
  · show chebyshevDistance (img x 0) (img x (clampIdx h ((0 : Nat) - 1 : Int))) = 0
    rw [c3, chebyshevDistance_self]
  · show chebyshevDistance (img x (h - 1)) (img x (clampIdx h (((h - 1 : Nat) : Int) + 1))) = 0
    rw [c4, chebyshevDistance_self]

/-- Witness for C3 on a concrete 1 by 1 image. -/
theorem edgeSampleNeighbor_boundary_zero_witness :
    (0 : Nat) < 1 ∧
    ((edgeSampleNeighbor (fun _ _ => ⟨9, 8, 7, 6⟩) 1 1 0 0).b = 0 ∧
     (edgeSampleNeighbor (fun _ _ => ⟨9, 8, 7, 6⟩) 1 1 (1 - 1) 0).a = 0 ∧
     (edgeSampleNeighbor (fun _ _ => ⟨9, 8, 7, 6⟩) 1 1 0 0).r = 0 ∧
     (edgeSampleNeighbor (fun _ _ => ⟨9, 8, 7, 6⟩) 1 1 0 (1 - 1)).g = 0) :=
  ⟨by decide, edgeSampleNeighbor_boundary_zero (fun _ _ => ⟨9, 8, 7, 6⟩) 1 1 0 0
    (by decide) (by decide)⟩

/-- C8: intersect is idempotent, commutative and associative, and always
equals the componentwise (max left, max top, min right, min bottom)
rectangle. -/
theorem intersect_algebra :
    (∀ r : Rectangle, r.intersect r = r) ∧
    (∀ p q : Rectangle, p.intersect q = q.intersect p) ∧
    (∀ p q s : Rectangle, (p.intersect q).intersect s = p.intersect (q.intersect s)) ∧
    (∀ p q : Rectangle, p.intersect q =
      ⟨max p.left q.left, max p.top q.top, min p.right q.right, min p.bottom q.bottom⟩) := by
  refine ⟨fun r => ?_, fun p q => ?_, fun p q s => ?_, fun p q => rfl⟩
  · simp [Rectangle.intersect]
  · simp [Rectangle.intersect, max_comm, min_comm]
  · simp [Rectangle.intersect, max_assoc, min_assoc]

/-- C9 counterexample: intersect does not mutate its receiver. After
r.intersectCall other the receiver still holds its old bounds, not the
intersection, at r = (0,0,10,10) and other = (5,5,20,20). -/
theorem intersect_no_mutation_counterexample :
    ((Rectangle.mk 0 0 10 10).intersectCall (Rectangle.mk 5 5 20 20)).1 ≠
      (Rectangle.mk 0 0 10 10).intersect (Rectangle.mk 5 5 20 20) := by
  decide

/-- C9 amended: grow and set mutate the receiver in place (the receiver
state after the call carries the new bounds, and the returned value is the
receiver), while intersect leaves the receiver unchanged and returns the
intersection as a fresh rectangle. -/
theorem mutation_semantics (r other : Rectangle) (amount l t rt b : Int) :
    (r.growCall amount).1 = r.grow amount ∧
    (r.growCall amount).2 = (r.growCall amount).1 ∧
    (r.setCall l t rt b).1 = Rectangle.mk l t rt b ∧
    (r.setCall l t rt b).2 = (r.setCall l t rt b).1 ∧
    (r.intersectCall other).1 = r ∧
    (r.intersectCall other).2 = r.intersect other :=
  ⟨rfl, rfl, rfl, rfl, rfl, rfl⟩

/-- Output pixel buffer of cropExpand (the ImageData the source returns). -/
structure PixelBuffer where
  width : Nat
  height : Nat
  data : Nat → Nat → RGBA

/-- The two failure kinds of cropExpand in src/util.js: the throw for a
non-positive crop rectangle and the throw for undeterminable source size. -/
inductive CropError where
  | invalidCropDimensions
  | unknownSourceDimensions
deriving DecidableEq, Repr

/-- A source image handle as cropExpand reads it: the three candidate size
fields probed by the || chains (a value of 0 models a falsy field, as 0 and
undefined are both falsy in the source), plus the pixel grid. -/
structure ImageSource where
  naturalWidth : Nat
  naturalHeight : Nat
  videoWidth : Nat
  videoHeight : Nat
  width : Nat
  height : Nat
  pixel : Nat → Nat → RGBA

/-- The JavaScript a || b on numbers: b when a is falsy (0), else a. -/
def jsOrNum (a b : Nat) : Nat := if a = 0 then b else a

/-- source.naturalWidth || source.videoWidth || source.width from
src/util.js line 142. -/
def sourceWidthOf (s : ImageSource) : Nat :=
  jsOrNum s.naturalWidth (jsOrNum s.videoWidth s.width)

/-- source.naturalHeight || source.videoHeight || source.height from
src/util.js line 143. -/
def sourceHeightOf (s : ImageSource) : Nat :=
  jsOrNum s.naturalHeight (jsOrNum s.videoHeight s.height)

/-- getTopLeftPixelColor from src/util.js: draws the (0,0)-(1,1) region of the source
onto a 1 by 1 canvas and reads that pixel, i.e. the top-left pixel. -/
def getTopLeftPixelColor (s : ImageSource) : RGBA := s.pixel 0 0

/-- cropExpand from src/util.js: checks the source size, checks the crop
size, fills the whole canvas with the padding color (explicit, or sampled
from the top-left source pixel), then overwrites the intersection of the
crop rectangle with the source bounds by the corresponding source pixels
(clearRect before drawImage, so the source replaces rather than blends).
Failures are the two throw statements, in source order. -/
def cropExpand (source : ImageSource) (cropRect : Rectangle)
    (paddingColor : Option RGBA) : Except CropError PixelBuffer :=
  let sourceWidth := sourceWidthOf source
  let sourceHeight := sourceHeightOf source
  if sourceWidth = 0 ∨ sourceHeight = 0 then
    Except.error CropError.unknownSourceDimensions
  else
    let cropWidth := cropRect.getWidth
    let cropHeight := cropRect.getHeight
    if cropWidth ≤ 0 ∨ cropHeight ≤ 0 then
      Except.error CropError.invalidCropDimensions
    else
      let fillColor := match paddingColor with
        | none => getTopLeftPixelColor source
        | some c => c
      let sourceRect : Rectangle := ⟨0, 0, sourceWidth, sourceHeight⟩
      let intersection := cropRect.intersect sourceRect
      Except.ok
        { width := cropWidth.toNat
          height := cropHeight.toNat
          data := fun dx dy =>
            let sx : Int := cropRect.left + dx
            let sy : Int := cropRect.top + dy
            if intersection.isEmpty then fillColor
            else if intersection.left ≤ sx ∧ sx < intersection.right ∧
                intersection.top ≤ sy ∧ sy < intersection.bottom then
              source.pixel sx.toNat sy.toNat
            else fillColor }

/-- Concrete source with no determinable dimensions: every size field 0. -/
def srcNoDims : ImageSource := ⟨0, 0, 0, 0, 0, 0, fun _ _ => ⟨0, 0, 0, 0⟩⟩

/-- Concrete 4 by 3 source whose pixel channels encode the coordinates. -/
def srcSmall : ImageSource :=
  ⟨4, 3, 0, 0, 0, 0, fun x y => ⟨x, y, x + y, 255⟩⟩

/-- C4 counterexample: a crop rectangle with non-positive width does not
produce InvalidCropDimensions when the source size is also undeterminable;
the source-dimension check runs first and wins. -/
theorem cropExpand_error_precedence_counterexample :
    (Rectangle.mk 0 0 0 0).getWidth ≤ 0 ∧
    cropExpand srcNoDims (Rectangle.mk 0 0 0 0) none =
      Except.error CropError.unknownSourceDimensions ∧
    cropExpand srcNoDims (Rectangle.mk 0 0 0 0) none ≠
      Except.error CropError.invalidCropDimensions := by
  refine ⟨by decide, rfl, ?_⟩
  intro h
  rw [show cropExpand srcNoDims (Rectangle.mk 0 0 0 0) none =
      Except.error CropError.unknownSourceDimensions from rfl] at h
  simp at h

/-- C4 amended: cropExpand fails with UnknownSourceDimensions whenever the
source size cannot be determined; it fails with InvalidCropDimensions
whenever the source size is determinable and the crop width or height is
non-positive; and a failure is always a bare error, never accompanied by an
output buffer. -/
theorem cropExpand_error_cases (s : ImageSource) (rect : Rectangle)
    (pc : Option RGBA) :
    ((sourceWidthOf s = 0 ∨ sourceHeightOf s = 0) →
      cropExpand s rect pc = Except.error CropError.unknownSourceDimensions) ∧
    (sourceWidthOf s ≠ 0 → sourceHeightOf s ≠ 0 →
      (rect.getWidth ≤ 0 ∨ rect.getHeight ≤ 0) →
      cropExpand s rect pc = Except.error CropError.invalidCropDimensions) ∧
    (∀ err, cropExpand s rect pc = Except.error err →
      ∀ out, cropExpand s rect pc ≠ Except.ok out) := by
  refine ⟨fun h => ?_, fun h1 h2 h3 => ?_, fun err herr out hok => ?_⟩
  · simp only [cropExpand, h, if_true]
  · have hcond : ¬(sourceWidthOf s = 0 ∨ sourceHeightOf s = 0) := by
      push_neg
      exact ⟨h1, h2⟩
    simp only [cropExpand, hcond, if_false, h3, if_true]
  · rw [herr] at hok
    exact Except.noConfusion hok

/-- Witness for C4 amended at two concrete calls, one for each error kind. -/
theorem cropExpand_error_cases_witness :
    cropExpand srcNoDims (Rectangle.mk 0 0 2 2) none =
      Except.error CropError.unknownSourceDimensions ∧
    cropExpand srcSmall (Rectangle.mk 0 0 0 5) none =
      Except.error CropError.invalidCropDimensions :=
  ⟨(cropExpand_error_cases srcNoDims (Rectangle.mk 0 0 2 2) none).1 (Or.inl rfl),
   (cropExpand_error_cases srcSmall (Rectangle.mk 0 0 0 5) none).2.1
     (by decide) (by decide) (Or.inl (by decide))⟩

/-- C5: cropExpand with the full-image rectangle (0,0,W,H) on a source of
determinable size W by H succeeds with a W by H buffer that is
pixel-identical to the source. -/
theorem cropExpand_identity (s : ImageSource) (wv hv : Nat)
    (hw : sourceWidthOf s = wv) (hh : sourceHeightOf s = hv)
    (hw0 : 0 < wv) (hh0 : 0 < hv) (pc : Option RGBA) :
    ∃ out : PixelBuffer,
      cropExpand s (Rectangle.mk 0 0 (wv : Int) (hv : Int)) pc = Except.ok out ∧
      out.width = wv ∧ out.height = hv ∧
      ∀ x y, x < wv → y < hv → out.data x y = s.pixel x y := by
  have hcond1 : ¬(sourceWidthOf s = 0 ∨ sourceHeightOf s = 0) := by omega
  have hcond2 : ¬((Rectangle.mk 0 0 (wv : Int) (hv : Int)).getWidth ≤ 0 ∨
      (Rectangle.mk 0 0 (wv : Int) (hv : Int)).getHeight ≤ 0) := by
    simp only [Rectangle.getWidth, Rectangle.getHeight]
    push_neg
    omega
  cases hres : cropExpand s (Rectangle.mk 0 0 (wv : Int) (hv : Int)) pc with
  | error err =>
    exfalso
    simp only [cropExpand, hcond1, hcond2, if_false, reduceCtorEq] at hres
  | ok out =>
    refine ⟨out, rfl, ?_⟩
    simp only [cropExpand, hcond1, hcond2, if_false, Except.ok.injEq] at hres
    subst hres
    refine ⟨by simp only [Rectangle.getWidth]; omega,
            by simp only [Rectangle.getHeight]; omega, ?_⟩
    intro x y hx hy
    simp only [Rectangle.intersect, Rectangle.isEmpty, Rectangle.mk.injEq, hw, hh]
    have hnonempty : ¬((min ((wv : Nat) : Int) ((wv : Nat) : Int) ≤ max (0 : Int) 0 ||
        min ((hv : Nat) : Int) ((hv : Nat) : Int) ≤ max (0 : Int) 0) = true) := by
      simp only [Bool.or_eq_true, decide_eq_true_eq]
      push_neg
      omega
    rw [if_neg hnonempty]
    have hin : max (0 : Int) 0 ≤ (0 : Int) + (x : Int) ∧
        (0 : Int) + (x : Int) < min ((wv : Nat) : Int) ((wv : Nat) : Int) ∧
        max (0 : Int) 0 ≤ (0 : Int) + (y : Int) ∧
        (0 : Int) + (y : Int) < min ((hv : Nat) : Int) ((hv : Nat) : Int) := by
      refine ⟨by omega, by omega, by omega, by omega⟩
    rw [if_pos hin]
    have hxx : ((0 : Int) + (x : Int)).toNat = x := by omega
    have hyy : ((0 : Int) + (y : Int)).toNat = y := by omega
    rw [hxx, hyy]

/-- Witness for C5 on the concrete 4 by 3 source: checking pixel (2,1). -/
theorem cropExpand_identity_witness :
    ∃ out : PixelBuffer,
      cropExpand srcSmall (Rectangle.mk 0 0 (4 : Int) (3 : Int)) none = Except.ok out ∧
      out.width = 4 ∧ out.height = 3 ∧
      ∀ x y, x < 4 → y < 3 → out.data x y = srcSmall.pixel x y :=
  cropExpand_identity srcSmall 4 3 (by decide) (by decide) (by decide) (by decide) none

end Slyce
